import Mathlib

/-!
# Verification of `sort_images_by_date.py` (picturesort)

A shallow embedding of the core logic of `src/sort_images_by_date.py`:
the date resolver (`get_image_date`), the geolocation extractor
(`get_gps_coordinates` with `_convert_to_degrees`), the filename composer
(`generate_new_filename`), the uniqueness probe (`get_unique_filename`) and
the sorting step of `sort_images`.

Modelling conventions:
* Python `datetime` values are records of numeric fields (`DateTime` below);
  Python compares them lexicographically on fields, which for in-range
  fields coincides with the numeric key `DateTime.key`.
* Filesystem timestamps (`st_ctime`, `st_mtime`) are modelled directly as
  `DateTime` values; `datetime.fromtimestamp` is strictly monotone, so
  `fromtimestamp (min c m) = min (fromtimestamp c) (fromtimestamp m)` and
  taking the minimum of the two `DateTime`s is faithful to the source's
  `min(stat.st_ctime, stat.st_mtime)`.
* Fallible operations (`Image.open` / `_getexif`, `Path.stat`,
  `_convert_to_degrees`) are modelled with `Except String`; a Python
  exception corresponds to an `.error` value.
* GPS rationals (PIL `IFDRational`) are modelled as `ℚ`; a DMS value is a
  `List ℚ`, and `_convert_to_degrees` fails (Python `IndexError`) when the
  list has fewer than three entries.
-/

namespace PictureSort

/-- A Python `datetime.datetime` value (date plus time of day, seconds
granularity, as produced by `strptime`, `fromtimestamp` and `now`). -/
structure DateTime where
  year : Nat
  month : Nat
  day : Nat
  hour : Nat
  minute : Nat
  second : Nat
deriving DecidableEq, Repr

/-- Numeric sort key for a `DateTime`; on valid (in-range) field values this
order coincides with Python's lexicographic `datetime` comparison. -/
def DateTime.key (d : DateTime) : Nat :=
  ((((d.year * 100 + d.month) * 100 + d.day) * 100 + d.hour) * 100 + d.minute) * 100 + d.second

/-- Field ranges maintained by every Python `datetime` object. -/
def DateTime.Valid (d : DateTime) : Prop :=
  1 ≤ d.month ∧ d.month ≤ 12 ∧ 1 ≤ d.day ∧ d.day ≤ 31 ∧
    d.hour ≤ 23 ∧ d.minute ≤ 59 ∧ d.second ≤ 59

instance (d : DateTime) : Decidable d.Valid := by
  unfold DateTime.Valid; infer_instance

/-- Decimal digits of `n`, least significant first; the first argument is
recursion fuel (`n` itself suffices). -/
def toDecimalAux : Nat → Nat → List Char
  | 0, _ => []
  | fuel + 1, n => if n = 0 then [] else Nat.digitChar (n % 10) :: toDecimalAux fuel (n / 10)

/-- Decimal representation of a natural number, as produced by Python `str`
and by `%d`-style formatting. -/
def numStr (n : Nat) : String :=
  if n = 0 then "0" else String.mk (toDecimalAux n n).reverse

/-- Zero-pad to two digits (`strftime` `%m`, `%d`, `%H`, `%M`, `%S`). -/
def pad2 (n : Nat) : String :=
  if n < 10 then "0" ++ numStr n else numStr n

/-- Zero-pad to four digits (`strftime` `%Y`). -/
def pad4 (n : Nat) : String :=
  if n < 10 then "000" ++ numStr n
  else if n < 100 then "00" ++ numStr n
  else if n < 1000 then "0" ++ numStr n
  else numStr n

/-- `date.strftime('%Y%m%d_%H%M%S')`. -/
def DateTime.formatCompact (d : DateTime) : String :=
  pad4 d.year ++ pad2 d.month ++ pad2 d.day ++ "_" ++
    pad2 d.hour ++ pad2 d.minute ++ pad2 d.second

/-- `date.strftime('%Y-%m-%d %H:%M:%S')`. -/
def DateTime.formatHuman (d : DateTime) : String :=
  pad4 d.year ++ "-" ++ pad2 d.month ++ "-" ++ pad2 d.day ++ " " ++
    pad2 d.hour ++ ":" ++ pad2 d.minute ++ ":" ++ pad2 d.second

/-- Split a character list on a separator character (every occurrence,
keeping empty pieces), like Python `str.split(sep)`. -/
def splitOnCharAux (sep : Char) : List Char → List Char → List (List Char)
  | [], acc => [acc.reverse]
  | c :: cs, acc =>
    if c = sep then acc.reverse :: splitOnCharAux sep cs []
    else splitOnCharAux sep cs (c :: acc)

def splitOnChar (sep : Char) (cs : List Char) : List (List Char) :=
  splitOnCharAux sep cs []

/-- Parse a run of decimal digits of width between `minW` and `maxW`
(CPython `strptime` matches `%Y` as exactly four digits and `%m`, `%d`,
`%H`, `%M`, `%S` as one or two digits). -/
def parseField (cs : List Char) (minW maxW : Nat) : Option Nat :=
  if minW ≤ cs.length ∧ cs.length ≤ maxW ∧ cs.all Char.isDigit then
    some (cs.foldl (fun acc c => acc * 10 + (c.toNat - 48)) 0)
  else none

def isLeapYear (y : Nat) : Bool :=
  (y % 4 == 0 && y % 100 != 0) || y % 400 == 0

def daysInMonth (y m : Nat) : Nat :=
  if m = 2 then (if isLeapYear y then 29 else 28)
  else if m = 4 ∨ m = 6 ∨ m = 9 ∨ m = 11 then 30
  else 31

/-- `datetime.strptime(date_str, '%Y:%m:%d %H:%M:%S')`: `none` models the
`ValueError` the source catches.  Field ranges are those enforced by the
`datetime` constructor (year 1..9999, calendar-valid day of month). -/
def parseExifDate (s : String) : Option DateTime :=
  match splitOnChar ' ' s.data with
  | [dpart, tpart] =>
    match splitOnChar ':' dpart, splitOnChar ':' tpart with
    | [ys, mos, ds], [hs, mins, ss] =>
      match parseField ys 4 4, parseField mos 1 2, parseField ds 1 2,
            parseField hs 1 2, parseField mins 1 2, parseField ss 1 2 with
      | some y, some mo, some da, some h, some mi, some se =>
        if 1 ≤ y ∧ 1 ≤ mo ∧ mo ≤ 12 ∧ 1 ≤ da ∧ da ≤ daysInMonth y mo ∧
            h ≤ 23 ∧ mi ≤ 59 ∧ se ≤ 59 then
          some ⟨y, mo, da, h, mi, se⟩
        else none
      | _, _, _, _, _, _ => none
    | _, _ => none
  | _ => none

/-- The grouped `GPSInfo` composite block: key 1 = latitude hemisphere,
2 = latitude DMS triple, 3 = longitude hemisphere, 4 = longitude DMS. -/
structure GpsInfoBlock where
  latRef : Option String
  latDms : Option (List ℚ)
  lonRef : Option String
  lonDms : Option (List ℚ)

/-- The EXIF tags of an image that the source reads (each `none` when the
tag is absent from the EXIF dictionary). -/
structure ExifData where
  dateTimeOriginal : Option String
  gpsLatitude : Option (List ℚ)
  gpsLongitude : Option (List ℚ)
  gpsLatitudeRef : Option String
  gpsLongitudeRef : Option String
  gpsInfo : Option GpsInfoBlock

/-- A file as the two functions observe it: the outcome of
`Image.open` + `_getexif()` (exception / no EXIF / EXIF data) and the
outcome of `Path.stat()` as the pair (creation time, modification time). -/
structure FileModel where
  openExif : Except String (Option ExifData)
  fsTimes : Except String (DateTime × DateTime)

/-- Which statistics counter `get_image_date` increments, i.e. the
provenance of the resolved date. -/
inductive Provenance where
  | exif
  | filesystemDate
  | currentDate
deriving DecidableEq, Repr

/-- `ImageSorter._convert_to_degrees`: `float(dms[0]) + float(dms[1])/60 +
float(dms[2])/3600`; indexing a too-short sequence raises (here `.error`),
which the callers catch. -/
def convert_to_degrees (dms : List ℚ) : Except String ℚ :=
  match dms with
  | d :: m :: s :: _ => .ok (d + m / 60 + s / 3600)
  | _ => .error "IndexError"

/-- `ImageSorter.get_gps_coordinates`.  Returns `none` when GPS mode is
off, when opening/decoding raises, when there is no EXIF dictionary, when
neither GPS encoding is present, or when a conversion raises (the source
catches the exception, logs, and falls through to `return None`). -/
def get_gps_coordinates (include_gps : Bool) (f : FileModel) : Option (ℚ × ℚ) :=
  if include_gps = false then none
  else
    match f.openExif with
    | .error _ => none
    | .ok none => none
    | .ok (some ex) =>
      match ex.gpsLatitude, ex.gpsLongitude with
      | some latDms, some lonDms =>
        -- structured form: both GPSLatitude and GPSLongitude tags present
        (match convert_to_degrees latDms, convert_to_degrees lonDms with
          | .ok lat0, .ok lon0 =>
            let lat := if ex.gpsLatitudeRef = some "S" then -lat0 else lat0
            let lon := if ex.gpsLongitudeRef = some "W" then -lon0 else lon0
            some (lat, lon)
          | _, _ => none)
      | _, _ =>
        -- the elif branch: grouped GPSInfo block
        match ex.gpsInfo with
        | some info =>
          (match info.latDms, info.lonDms with
            | some latDms, some lonDms =>
              (match convert_to_degrees latDms, convert_to_degrees lonDms with
                | .ok lat0, .ok lon0 =>
                  let lat := if info.latRef = some "S" then -lat0 else lat0
                  let lon := if info.lonRef = some "W" then -lon0 else lon0
                  some (lat, lon)
                | _, _ => none)
            | _, _ => none)
        | none => none

/-- The value computed by the structured-form branch of
`get_gps_coordinates` once both `GPSLatitude` and `GPSLongitude` hold the
given DMS values: the converted pair with hemisphere signs applied, or
`none` when a conversion raises. -/
def structuredResult (ex : ExifData) (latDms lonDms : List ℚ) : Option (ℚ × ℚ) :=
  match convert_to_degrees latDms, convert_to_degrees lonDms with
  | .ok lat0, .ok lon0 =>
    some ((if ex.gpsLatitudeRef = some "S" then -lat0 else lat0),
          (if ex.gpsLongitudeRef = some "W" then -lon0 else lon0))
  | _, _ => none

/-- The earlier of the two filesystem timestamps,
`min(stat.st_ctime, stat.st_mtime)` (Python `min` returns the first
argument on ties). -/
def minDT (c m : DateTime) : DateTime :=
  if c.key ≤ m.key then c else m

/-- The EXIF step of `get_image_date` (its `try` block): the parsed
`DateTimeOriginal` timestamp together with the raw tag string when opening
succeeds, an EXIF dictionary is present, the tag is present and it parses;
`none` in every other case (the source then falls through). -/
def exifDateResult (f : FileModel) : Option (DateTime × String) :=
  match f.openExif with
  | .error _ => none
  | .ok none => none
  | .ok (some ex) =>
    match ex.dateTimeOriginal with
    | none => none
    | some s =>
      match parseExifDate s with
      | some d => some (d, s)
      | none => none

/-- `ImageSorter.get_image_date`: the EXIF `DateTimeOriginal` tag when it
parses, else the earlier filesystem timestamp, else `datetime.now()`
(passed in as `now`).  The third component records which statistics
counter is incremented. -/
def get_image_date (now : DateTime) (f : FileModel) : DateTime × String × Provenance :=
  match exifDateResult f with
  | some (d, s) => (d, "EXIF: " ++ s, .exif)
  | none =>
    match f.fsTimes with
    | .ok (c, m) =>
      let d := minDT c m
      (d, "Dateisystem: " ++ d.formatHuman, .filesystemDate)
    | .error _ =>
      (now, "Aktuelles Datum: " ++ now.formatHuman, .currentDate)

/-- `re.sub(r'[^\w\-_.]', '_', name)` on one character: keep word
characters (ASCII alphanumerics and underscore), hyphen and dot, replace
everything else with an underscore. -/
def sanitize_char (c : Char) : Char :=
  if c.isAlphanum || c = '_' || c = '-' || c = '.' then c else '_'

def safe_name (s : String) : String :=
  String.mk (s.data.map sanitize_char)

def lowerString (s : String) : String :=
  String.mk (s.data.map Char.toLower)

def padLeftZeros (s : String) (w : Nat) : String :=
  String.mk (List.replicate (w - s.data.length) '0' ++ s.data)

/-- The integer nearest `|q| * 10^6` (half away from zero), the scaled
magnitude used by `%.6f` fixed-point formatting. -/
def fixed6Units (q : ℚ) : Nat :=
  let a : ℚ := |q| * 1000000 + 1 / 2
  (a.num / (a.den : ℤ)).toNat

/-- Python `f-string` formatting `f"{q:.6f}"`: sign, integer part, dot,
six fractional digits. -/
def formatFixed6 (q : ℚ) : String :=
  let sign := if q < 0 then "-" else ""
  let n := fixed6Units q
  sign ++ numStr (n / 1000000) ++ "." ++ padLeftZeros (numStr (n % 1000000)) 6

/-- `'_'.join(parts)`. -/
def joinUnderscore : List String → String
  | [] => ""
  | [s] => s
  | s :: rest => s ++ "_" ++ joinUnderscore rest

/-- `ImageSorter.generate_new_filename`: `stem` is `original_path.stem`,
`ext` is `original_path.suffix` (lower-cased here, as in the source). -/
def generate_new_filename (stem ext : String) (date : DateTime)
    (gps : Option (ℚ × ℚ)) (subfolder : String) : String :=
  let date_str := date.formatCompact
  let sname := safe_name stem
  let parts1 := if subfolder = "" then [date_str] else [date_str] ++ [subfolder]
  let parts2 := parts1 ++ [sname]
  let parts3 :=
    match gps with
    | none => parts2
    | some (lat, lon) => parts2 ++ ["_" ++ formatFixed6 lat ++ "," ++ formatFixed6 lon ++ "_"]
  joinUnderscore parts3 ++ lowerString ext

/-- Position of the last dot in the list, if any. -/
def lastDotIndex (cs : List Char) : Option Nat :=
  match cs.reverse.findIdx? (· == '.') with
  | none => none
  | some k => some (cs.length - 1 - k)

/-- `os.path.splitext` for a plain filename (no path separators): split at
the last dot unless every character before it is itself a dot. -/
def splitext (s : String) : String × String :=
  match lastDotIndex s.data with
  | none => (s, "")
  | some i =>
    if (s.data.take i).any (fun c => c != '.') then
      (String.mk (s.data.take i), String.mk (s.data.drop i))
    else (s, "")

/-- The candidate tried for counter value `k`:
the base name for `k = 0`, else `f"{name}_{k}{ext}"`. -/
def candidateName (base name ext : String) (k : Nat) : String :=
  if k = 0 then base else name ++ "_" ++ numStr k ++ ext

/-- The probe loop of `get_unique_filename`, with explicit fuel (the loop
terminates because only finitely many names exist in the destination). -/
def get_unique_filename_aux (existing : List String) (base name ext : String) :
    Nat → Nat → String
  | 0, _ => base
  | fuel + 1, counter =>
    let test := candidateName base name ext counter
    if test ∈ existing then get_unique_filename_aux existing base name ext fuel (counter + 1)
    else test

/-- `ImageSorter.get_unique_filename`: `dest_exists` is
`self.dest_dir.exists()` and `existing` the set of names already present
in the destination directory. -/
def get_unique_filename (dest_exists : Bool) (existing : List String) (base : String) : String :=
  if dest_exists = false then base
  else
    let ne := splitext base
    get_unique_filename_aux existing base ne.1 ne.2 (existing.length + 2) 0

/-- One analyzed image: the tuple
`(image_path, date, source, gps_coords, subfolder)` accumulated by
`sort_images`. -/
structure Record where
  path : String
  date : DateTime
  source : String
  gps : Option (ℚ × ℚ)
  subfolder : String
deriving DecidableEq

/-- The comparison used by `images_with_data.sort(key=lambda x: x[1])`:
order by the resolved date only. -/
def recLE (a b : Record) : Prop :=
  a.date.key ≤ b.date.key

instance : DecidableRel recLE := fun a b => Nat.decLe a.date.key b.date.key

instance : IsTotal Record recLE := ⟨fun a b => Nat.le_total a.date.key b.date.key⟩

instance : IsTrans Record recLE := ⟨fun _ _ _ h h2 => Nat.le_trans h h2⟩

/-- The sorting step of `ImageSorter.sort_images`
(`images_with_data.sort(key=lambda x: x[1])`): Python `list.sort` is a
stable sort by the given key, modelled by stable insertion sort. -/
def sort_images (l : List Record) : List Record :=
  l.insertionSort recLE

/-- Modelled from the spec wording of the filename composer (section 4.3),
for comparison with `generate_new_filename`: the underscore-joined
concatenation of the `YYYYMMDD_HHMMSS` timestamp, the subfolder tag when
non-empty, the sanitized stem, the 6-decimal coordinate component when
coordinates are present, followed by the lower-cased original extension. -/
def compose_filename_spec (stem ext : String) (date : DateTime)
    (gps : Option (ℚ × ℚ)) (subfolder : String) : String :=
  date.formatCompact ++ "_" ++
    (if subfolder = "" then "" else subfolder ++ "_") ++
    safe_name stem ++
    (match gps with
      | none => ""
      | some (lat, lon) =>
        "_" ++ ("_" ++ formatFixed6 lat ++ "," ++ formatFixed6 lon ++ "_")) ++
    lowerString ext

/-- Value of a digit list, least significant digit first; inverse of
`toDecimalAux`, used to prove `numStr` injective. -/
def decValRev : List Char → Nat
  | [] => 0
  | c :: cs => (c.toNat - 48) + 10 * decValRev cs

/-!
## Theorems
-/

/-- Claim C1: for every file whose embedded EXIF `DateTimeOriginal` tag
parses under the fixed format `YYYY:MM:DD HH:MM:SS`, `get_image_date`
returns exactly that parsed timestamp with provenance EXIF.  The file's
filesystem timestamps `f.fsTimes` are universally quantified (inside `f`)
and do not occur in the conclusion, so the result is independent of them. -/
theorem exif_date_wins (now : DateTime) (f : FileModel) (ex : ExifData)
    (s : String) (d : DateTime)
    (hopen : f.openExif = Except.ok (some ex))
    (htag : ex.dateTimeOriginal = some s)
    (hparse : parseExifDate s = some d) :
    get_image_date now f = (d, "EXIF: " ++ s, Provenance.exif) := by
  simp only [get_image_date, exifDateResult, hopen, htag, hparse]

theorem exif_date_wins_witness :
    parseExifDate "2023:06:15 14:30:00" = some ⟨2023, 6, 15, 14, 30, 0⟩ ∧
    get_image_date ⟨2024, 1, 1, 0, 0, 0⟩
        ⟨Except.ok (some ⟨some "2023:06:15 14:30:00", none, none, none, none, none⟩),
          Except.ok (⟨1999, 1, 1, 0, 0, 0⟩, ⟨2000, 1, 1, 0, 0, 0⟩)⟩ =
      (⟨2023, 6, 15, 14, 30, 0⟩, "EXIF: 2023:06:15 14:30:00", Provenance.exif) :=
  ⟨by decide,
    exif_date_wins _ _ ⟨some "2023:06:15 14:30:00", none, none, none, none, none⟩ _ _
      rfl rfl (by decide)⟩

/-- Claim C2: for every file with no parseable EXIF `DateTimeOriginal`
tag, `get_image_date` returns the earlier of the file's creation and
modification times with provenance Filesystem, and when the filesystem
read raises instead, it returns the current wall-clock time `now` with
provenance CurrentDateFallback. -/
theorem date_fallback_chain (now : DateTime) (f : FileModel)
    (hnoexif : exifDateResult f = none) :
    (∀ c m, f.fsTimes = Except.ok (c, m) →
      get_image_date now f =
        (minDT c m, "Dateisystem: " ++ (minDT c m).formatHuman, Provenance.filesystemDate) ∧
      ((minDT c m).key ≤ c.key ∧ (minDT c m).key ≤ m.key ∧
        (minDT c m = c ∨ minDT c m = m))) ∧
    (∀ e, f.fsTimes = Except.error e →
      get_image_date now f =
        (now, "Aktuelles Datum: " ++ now.formatHuman, Provenance.currentDate)) := by
  constructor
  · intro c m hfs
    constructor
    · simp only [get_image_date, hnoexif, hfs]
    · unfold minDT
      by_cases h : c.key ≤ m.key
      · simp [h]
      · simp [h]
        omega
  · intro e hfs
    simp only [get_image_date, hnoexif, hfs]

theorem date_fallback_chain_witness :
    exifDateResult ⟨Except.ok none, Except.ok (⟨2023, 5, 1, 0, 0, 0⟩, ⟨2022, 5, 1, 0, 0, 0⟩)⟩ = none ∧
    get_image_date ⟨2024, 1, 1, 0, 0, 0⟩
        ⟨Except.ok none, Except.ok (⟨2023, 5, 1, 0, 0, 0⟩, ⟨2022, 5, 1, 0, 0, 0⟩)⟩ =
      (⟨2022, 5, 1, 0, 0, 0⟩, "Dateisystem: 2022-05-01 00:00:00", Provenance.filesystemDate) ∧
    exifDateResult ⟨Except.error "open failed", Except.error "stat failed"⟩ = none ∧
    get_image_date ⟨2024, 1, 1, 0, 0, 0⟩ ⟨Except.error "open failed", Except.error "stat failed"⟩ =
      (⟨2024, 1, 1, 0, 0, 0⟩, "Aktuelles Datum: 2024-01-01 00:00:00", Provenance.currentDate) := by
  refine ⟨by decide, ?_, by decide, ?_⟩
  · have h := ((date_fallback_chain ⟨2024, 1, 1, 0, 0, 0⟩
      ⟨Except.ok none, Except.ok (⟨2023, 5, 1, 0, 0, 0⟩, ⟨2022, 5, 1, 0, 0, 0⟩)⟩ (by decide)).1
      ⟨2023, 5, 1, 0, 0, 0⟩ ⟨2022, 5, 1, 0, 0, 0⟩ rfl).1
    simpa using h
  · exact (date_fallback_chain ⟨2024, 1, 1, 0, 0, 0⟩
      ⟨Except.error "open failed", Except.error "stat failed"⟩ (by decide)).2 "stat failed" rfl

/-- Claim C8 counterexample: at a file resolved from filesystem
timestamps, the descriptive string is the German `"Dateisystem: ..."`,
not the `"Filesystem: <formatted date>"` the claim states (and the
current-date branch likewise yields `"Aktuelles Datum: ..."`, not
`"Current date: ..."`). -/
theorem provenance_string_counterexample :
    get_image_date ⟨2024, 1, 1, 0, 0, 0⟩
        ⟨Except.ok none, Except.ok (⟨2023, 1, 2, 3, 4, 5⟩, ⟨2023, 6, 6, 6, 6, 6⟩)⟩ =
      (⟨2023, 1, 2, 3, 4, 5⟩, "Dateisystem: 2023-01-02 03:04:05", Provenance.filesystemDate) ∧
    "Dateisystem: 2023-01-02 03:04:05" ≠
      "Filesystem: " ++ DateTime.formatHuman ⟨2023, 1, 2, 3, 4, 5⟩ ∧
    get_image_date ⟨2024, 1, 1, 0, 0, 0⟩ ⟨Except.error "e", Except.error "e"⟩ =
      (⟨2024, 1, 1, 0, 0, 0⟩, "Aktuelles Datum: 2024-01-01 00:00:00", Provenance.currentDate) ∧
    "Aktuelles Datum: 2024-01-01 00:00:00" ≠
      "Current date: " ++ DateTime.formatHuman ⟨2024, 1, 1, 0, 0, 0⟩ := by
  decide

/-- Claim C8 as amended: the descriptive string is exactly
`"EXIF: <raw string>"` in the EXIF branch, `"Dateisystem: <formatted
date>"` in the filesystem branch, and `"Aktuelles Datum: <formatted
date>"` in the current-date branch (the labels of the two fallback
branches are German, not the English ones the claim states). -/
theorem provenance_strings_amended (now : DateTime) (f : FileModel) :
    (∀ ex s d, f.openExif = Except.ok (some ex) → ex.dateTimeOriginal = some s →
      parseExifDate s = some d → (get_image_date now f).2.1 = "EXIF: " ++ s) ∧
    (∀ c m, exifDateResult f = none → f.fsTimes = Except.ok (c, m) →
      (get_image_date now f).2.1 = "Dateisystem: " ++ (minDT c m).formatHuman) ∧
    (∀ e, exifDateResult f = none → f.fsTimes = Except.error e →
      (get_image_date now f).2.1 = "Aktuelles Datum: " ++ now.formatHuman) := by
  refine ⟨fun ex s d hopen htag hparse => ?_, fun c m hnoexif hfs => ?_, fun e hnoexif hfs => ?_⟩
  · simp only [get_image_date, exifDateResult, hopen, htag, hparse]
  · simp only [get_image_date, hnoexif, hfs]
  · simp only [get_image_date, hnoexif, hfs]

/-- Helper: with both structured tags present, `get_gps_coordinates`
computes exactly the structured-branch result, whatever `gpsInfo` holds. -/
theorem gps_structured_eq (f : FileModel) (ex : ExifData) (latDms lonDms : List ℚ)
    (hopen : f.openExif = Except.ok (some ex))
    (h1 : ex.gpsLatitude = some latDms) (h2 : ex.gpsLongitude = some lonDms) :
    get_gps_coordinates true f = structuredResult ex latDms lonDms := by
  cases hc1 : convert_to_degrees latDms <;> cases hc2 : convert_to_degrees lonDms <;>
    simp [get_gps_coordinates, structuredResult, hopen, h1, h2, hc1, hc2]

/-- Helper: inversion of a successful GPS extraction — a coordinate pair
comes either from the structured branch or from the grouped `GPSInfo`
branch, in each case as a sign-adjusted conversion result. -/
theorem gps_some_inv (f : FileModel) (lat lon : ℚ)
    (h : get_gps_coordinates true f = some (lat, lon)) :
    ∃ ex, f.openExif = Except.ok (some ex) ∧
      ((∃ latDms lonDms lat0 lon0,
          ex.gpsLatitude = some latDms ∧ ex.gpsLongitude = some lonDms ∧
          convert_to_degrees latDms = Except.ok lat0 ∧
          convert_to_degrees lonDms = Except.ok lon0 ∧
          lat = (if ex.gpsLatitudeRef = some "S" then -lat0 else lat0) ∧
          lon = (if ex.gpsLongitudeRef = some "W" then -lon0 else lon0)) ∨
        (∃ info latDms lonDms lat0 lon0,
          ex.gpsInfo = some info ∧
          info.latDms = some latDms ∧ info.lonDms = some lonDms ∧
          convert_to_degrees latDms = Except.ok lat0 ∧
          convert_to_degrees lonDms = Except.ok lon0 ∧
          lat = (if info.latRef = some "S" then -lat0 else lat0) ∧
          lon = (if info.lonRef = some "W" then -lon0 else lon0))) := by
  unfold get_gps_coordinates at h
  rw [if_neg (show ¬(true = false) by decide)] at h
  split at h
  · exact Option.noConfusion h
  · exact Option.noConfusion h
  · rename_i ex heq
    refine ⟨ex, heq, ?_⟩
    split at h
    · rename_i latDms lonDms hla hlo
      split at h
      · rename_i lat0 lon0 hc1 hc2
        simp only [Option.some.injEq, Prod.mk.injEq] at h
        exact Or.inl ⟨latDms, lonDms, lat0, lon0, hla, hlo, hc1, hc2, h.1.symm, h.2.symm⟩
      · exact Option.noConfusion h
    · split at h
      · rename_i info hinfo
        split at h
        · rename_i latDms lonDms hld hlnd
          split at h
          · rename_i lat0 lon0 hc1 hc2
            simp only [Option.some.injEq, Prod.mk.injEq] at h
            exact Or.inr
              ⟨info, latDms, lonDms, lat0, lon0, hinfo, hld, hlnd, hc1, hc2, h.1.symm, h.2.symm⟩
          · exact Option.noConfusion h
        · exact Option.noConfusion h
      · exact Option.noConfusion h

theorem provenance_strings_amended_witness :
    parseExifDate "2023:06:15 14:30:00" = some ⟨2023, 6, 15, 14, 30, 0⟩ ∧
    (get_image_date ⟨2024, 1, 1, 0, 0, 0⟩
        ⟨Except.ok (some ⟨some "2023:06:15 14:30:00", none, none, none, none, none⟩),
          Except.error "stat"⟩).2.1 = "EXIF: " ++ "2023:06:15 14:30:00" ∧
    (get_image_date ⟨2024, 1, 1, 0, 0, 0⟩
        ⟨Except.ok none, Except.ok (⟨2023, 1, 2, 3, 4, 5⟩, ⟨2023, 6, 6, 6, 6, 6⟩)⟩).2.1 =
      "Dateisystem: " ++ (minDT ⟨2023, 1, 2, 3, 4, 5⟩ ⟨2023, 6, 6, 6, 6, 6⟩).formatHuman ∧
    (get_image_date ⟨2024, 1, 1, 0, 0, 0⟩ ⟨Except.error "e", Except.error "e"⟩).2.1 =
      "Aktuelles Datum: " ++ DateTime.formatHuman ⟨2024, 1, 1, 0, 0, 0⟩ :=
  ⟨by decide,
    (provenance_strings_amended _ _).1 ⟨some "2023:06:15 14:30:00", none, none, none, none, none⟩
      _ ⟨2023, 6, 15, 14, 30, 0⟩ rfl rfl (by decide),
    (provenance_strings_amended _ _).2.1 ⟨2023, 1, 2, 3, 4, 5⟩ ⟨2023, 6, 6, 6, 6, 6⟩
      (by decide) rfl,
    (provenance_strings_amended _ _).2.2 "e" (by decide) rfl⟩

/-- Claim C5: DMS-to-decimal conversion computes
degrees + minutes/60 + seconds/3600; the structured-form result is negated
exactly when the latitude reference is S (resp. the longitude reference is
W); and the concrete structured input lat=(40,26,46) ref N, lon=(79,58,56)
ref W yields a decimal pair within 1e-5 of (40.446111, −79.982222). -/
theorem dms_conversion_spec :
    (∀ (d m s : ℚ) (rest : List ℚ),
      convert_to_degrees (d :: m :: s :: rest) = Except.ok (d + m / 60 + s / 3600)) ∧
    (∀ (latD latM latS lonD lonM lonS : ℚ) (latRef lonRef : Option String)
        (info : Option GpsInfoBlock) (dto : Option String)
        (fs : Except String (DateTime × DateTime)),
      get_gps_coordinates true
          ⟨Except.ok (some ⟨dto, some [latD, latM, latS], some [lonD, lonM, lonS],
            latRef, lonRef, info⟩), fs⟩ =
        some ((if latRef = some "S" then -(latD + latM / 60 + latS / 3600)
                else latD + latM / 60 + latS / 3600),
              (if lonRef = some "W" then -(lonD + lonM / 60 + lonS / 3600)
                else lonD + lonM / 60 + lonS / 3600))) ∧
    get_gps_coordinates true
        ⟨Except.ok (some ⟨none, some [40, 26, 46], some [79, 58, 56],
          some "N", some "W", none⟩), Except.error "stat"⟩ =
      some (40 + 26 / 60 + 46 / 3600, -(79 + 58 / 60 + 56 / 3600)) ∧
    |(40 + 26 / 60 + 46 / 3600 : ℚ) - 40446111 / 1000000| < 1 / 100000 ∧
    |(-(79 + 58 / 60 + 56 / 3600) : ℚ) - -(79982222 / 1000000)| < 1 / 100000 := by
  refine ⟨fun d m s rest => rfl, ?_, rfl, by rw [abs_lt]; constructor <;> norm_num,
    by rw [abs_lt]; constructor <;> norm_num⟩
  intro latD latM latS lonD lonM lonS latRef lonRef info dto fs
  rw [gps_structured_eq _ ⟨dto, some [latD, latM, latS], some [lonD, lonM, lonS],
    latRef, lonRef, info⟩ [latD, latM, latS] [lonD, lonM, lonS] rfl rfl rfl]
  rfl

/-- Claim C6: `get_gps_coordinates` is a total function into an `Option`
(every internal failure is caught): with GPS mode disabled it returns
`none` for every file whatsoever (so no file access can occur); and it
returns `none` — never an error — when opening/decoding raises, when the
file has no EXIF dictionary, when no GPS tag is present, and when
conversion of either structured DMS value raises. -/
theorem gps_no_error (f : FileModel) :
    get_gps_coordinates false f = none ∧
    (∀ e, f.openExif = Except.error e → get_gps_coordinates true f = none) ∧
    (f.openExif = Except.ok none → get_gps_coordinates true f = none) ∧
    (∀ ex, f.openExif = Except.ok (some ex) → ex.gpsLatitude = none →
      ex.gpsLongitude = none → ex.gpsInfo = none → get_gps_coordinates true f = none) ∧
    (∀ ex latDms lonDms e, f.openExif = Except.ok (some ex) →
      ex.gpsLatitude = some latDms → ex.gpsLongitude = some lonDms →
      convert_to_degrees latDms = Except.error e → get_gps_coordinates true f = none) ∧
    (∀ ex latDms lonDms lat0 e, f.openExif = Except.ok (some ex) →
      ex.gpsLatitude = some latDms → ex.gpsLongitude = some lonDms →
      convert_to_degrees latDms = Except.ok lat0 →
      convert_to_degrees lonDms = Except.error e → get_gps_coordinates true f = none) := by
  refine ⟨rfl, fun e h => ?_, fun h => ?_, fun ex h h1 h2 h3 => ?_,
    fun ex latDms lonDms e h h1 h2 h3 => ?_, fun ex latDms lonDms lat0 e h h1 h2 h3 h4 => ?_⟩
  · simp [get_gps_coordinates, h]
  · simp [get_gps_coordinates, h]
  · simp [get_gps_coordinates, h, h1, h2, h3]
  · rw [gps_structured_eq f ex latDms lonDms h h1 h2]
    cases hc2 : convert_to_degrees lonDms <;> simp [structuredResult, h3, hc2]
  · rw [gps_structured_eq f ex latDms lonDms h h1 h2]
    simp [structuredResult, h3, h4]

theorem gps_no_error_witness :
    get_gps_coordinates false ⟨Except.error "open", Except.error "stat"⟩ = none ∧
    get_gps_coordinates true ⟨Except.error "open", Except.error "stat"⟩ = none ∧
    get_gps_coordinates true ⟨Except.ok none, Except.error "stat"⟩ = none ∧
    get_gps_coordinates true
      ⟨Except.ok (some ⟨some "2023:06:15 14:30:00", none, none, none, none, none⟩),
        Except.error "stat"⟩ = none ∧
    get_gps_coordinates true
      ⟨Except.ok (some ⟨none, some [], some [1, 2, 3], none, none,
        some ⟨some "N", some [1, 2, 3], some "E", some [4, 5, 6]⟩⟩),
        Except.error "stat"⟩ = none ∧
    get_gps_coordinates true
      ⟨Except.ok (some ⟨none, some [1, 2, 3], some [7], none, none, none⟩),
        Except.error "stat"⟩ = none :=
  ⟨(gps_no_error ⟨Except.error "open", Except.error "stat"⟩).1,
    (gps_no_error _).2.1 "open" rfl,
    (gps_no_error _).2.2.1 rfl,
    (gps_no_error _).2.2.2.1 ⟨some "2023:06:15 14:30:00", none, none, none, none, none⟩
      rfl rfl rfl rfl,
    (gps_no_error _).2.2.2.2.1 ⟨none, some [], some [1, 2, 3], none, none,
      some ⟨some "N", some [1, 2, 3], some "E", some [4, 5, 6]⟩⟩ [] [1, 2, 3] "IndexError"
      rfl rfl rfl rfl,
    (gps_no_error _).2.2.2.2.2 ⟨none, some [1, 2, 3], some [7], none, none, none⟩
      [1, 2, 3] [7] (1 + 2 / 60 + 3 / 3600) "IndexError" rfl rfl rfl rfl rfl⟩

/-- Claim C7 counterexample: the extractor accepts the structured DMS
input lat=(900,0,0), lon=(200,0,0) and returns the pair (900, 200),
which violates the claimed ranges −90..90 and −180..180 — the code
applies the hemisphere sign but performs no range validation. -/
theorem gps_range_counterexample :
    get_gps_coordinates true
        ⟨Except.ok (some ⟨none, some [900, 0, 0], some [200, 0, 0], none, none, none⟩),
          Except.error "stat"⟩ = some (900, 200) ∧
    ¬((900 : ℚ) ≤ 90) ∧ ¬((200 : ℚ) ≤ 180) := by
  refine ⟨?_, by norm_num, by norm_num⟩
  have h : get_gps_coordinates true
      ⟨Except.ok (some ⟨none, some [900, 0, 0], some [200, 0, 0], none, none, none⟩),
        Except.error "stat"⟩ =
      some (900 + 0 / 60 + 0 / 3600, 200 + 0 / 60 + 0 / 3600) := rfl
  rw [h]
  norm_num

/-- Claim C7 as amended: the extractor performs no range validation, so
the invariant holds only conditionally — whenever every latitude DMS value
carried by the file converts (when it converts at all) into [0, 90] and
every longitude DMS value into [0, 180], a returned coordinate pair lies
within −90..90 × −180..180 after hemisphere sign adjustment. -/
theorem gps_in_range_of_bounded_dms (f : FileModel) (lat lon : ℚ)
    (hblat : ∀ ex dms x, f.openExif = Except.ok (some ex) →
      (ex.gpsLatitude = some dms ∨
        (∃ info, ex.gpsInfo = some info ∧ info.latDms = some dms)) →
      convert_to_degrees dms = Except.ok x → 0 ≤ x ∧ x ≤ 90)
    (hblon : ∀ ex dms x, f.openExif = Except.ok (some ex) →
      (ex.gpsLongitude = some dms ∨
        (∃ info, ex.gpsInfo = some info ∧ info.lonDms = some dms)) →
      convert_to_degrees dms = Except.ok x → 0 ≤ x ∧ x ≤ 180)
    (h : get_gps_coordinates true f = some (lat, lon)) :
    -90 ≤ lat ∧ lat ≤ 90 ∧ -180 ≤ lon ∧ lon ≤ 180 := by
  obtain ⟨ex, hopen, hc⟩ := gps_some_inv f lat lon h
  rcases hc with ⟨latDms, lonDms, lat0, lon0, h1, h2, h3, h4, h5, h6⟩ |
    ⟨info, latDms, lonDms, lat0, lon0, h0, h1, h2, h3, h4, h5, h6⟩
  · obtain ⟨ha1, ha2⟩ := hblat ex latDms lat0 hopen (Or.inl h1) h3
    obtain ⟨hb1, hb2⟩ := hblon ex lonDms lon0 hopen (Or.inl h2) h4
    subst h5; subst h6
    refine ⟨?_, ?_, ?_, ?_⟩ <;> split_ifs <;> linarith
  · obtain ⟨ha1, ha2⟩ := hblat ex latDms lat0 hopen (Or.inr ⟨info, h0, h1⟩) h3
    obtain ⟨hb1, hb2⟩ := hblon ex lonDms lon0 hopen (Or.inr ⟨info, h0, h2⟩) h4
    subst h5; subst h6
    refine ⟨?_, ?_, ?_, ?_⟩ <;> split_ifs <;> linarith

theorem gps_in_range_of_bounded_dms_witness :
    get_gps_coordinates true
        ⟨Except.ok (some ⟨none, some [40, 26, 46], some [79, 58, 56],
          some "N", some "W", none⟩), Except.error "stat"⟩ =
      some (40 + 26 / 60 + 46 / 3600, -(79 + 58 / 60 + 56 / 3600)) ∧
    (-90 ≤ (40 + 26 / 60 + 46 / 3600 : ℚ) ∧ (40 + 26 / 60 + 46 / 3600 : ℚ) ≤ 90 ∧
      -180 ≤ (-(79 + 58 / 60 + 56 / 3600) : ℚ) ∧ (-(79 + 58 / 60 + 56 / 3600) : ℚ) ≤ 180) := by
  refine ⟨rfl, ?_⟩
  refine gps_in_range_of_bounded_dms
    ⟨Except.ok (some ⟨none, some [40, 26, 46], some [79, 58, 56],
      some "N", some "W", none⟩), Except.error "stat"⟩ _ _ ?_ ?_ rfl
  · rintro ex dms x hopen hsrc hconv
    injection hopen with hopen2
    injection hopen2 with hopen3
    subst hopen3
    rcases hsrc with hdms | ⟨info, hinfo, _⟩
    · injection hdms with hdms2
      subst hdms2
      injection hconv with hx
      constructor <;> rw [← hx] <;> norm_num
    · exact Option.noConfusion hinfo
  · rintro ex dms x hopen hsrc hconv
    injection hopen with hopen2
    injection hopen2 with hopen3
    subst hopen3
    rcases hsrc with hdms | ⟨info, hinfo, _⟩
    · injection hdms with hdms2
      subst hdms2
      injection hconv with hx
      constructor <;> rw [← hx] <;> norm_num
    · exact Option.noConfusion hinfo

/-- Claim C10: when both GPS encodings are present, the structured form
(separate `GPSLatitude`/`GPSLongitude` tags) decides the result on its
own — whatever the grouped `GPSInfo` block contains — and when conversion
of the structured form fails the extractor returns `none` without
attempting the grouped form. -/
theorem structured_precedence (f : FileModel) (ex : ExifData) (latDms lonDms : List ℚ)
    (hopen : f.openExif = Except.ok (some ex))
    (h1 : ex.gpsLatitude = some latDms) (h2 : ex.gpsLongitude = some lonDms) :
    get_gps_coordinates true f = structuredResult ex latDms lonDms ∧
    (∀ e, convert_to_degrees latDms = Except.error e → get_gps_coordinates true f = none) := by
  have hmain : get_gps_coordinates true f = structuredResult ex latDms lonDms := by
    cases hc1 : convert_to_degrees latDms <;> cases hc2 : convert_to_degrees lonDms <;>
      simp [get_gps_coordinates, structuredResult, hopen, h1, h2, hc1, hc2]
  refine ⟨hmain, fun e he => ?_⟩
  rw [hmain]
  cases hc2 : convert_to_degrees lonDms <;> simp [structuredResult, he, hc2]

theorem structured_precedence_witness :
    get_gps_coordinates true
        ⟨Except.ok (some ⟨none, some [40, 26, 46], some [79, 58, 56], some "N", some "S",
          some ⟨some "S", some [1, 2, 3], some "W", some [4, 5, 6]⟩⟩),
          Except.error "stat"⟩ =
      structuredResult
        ⟨none, some [40, 26, 46], some [79, 58, 56], some "N", some "S",
          some ⟨some "S", some [1, 2, 3], some "W", some [4, 5, 6]⟩⟩
        [40, 26, 46] [79, 58, 56] ∧
    get_gps_coordinates true
        ⟨Except.ok (some ⟨none, some [], some [79, 58, 56], none, none,
          some ⟨some "S", some [1, 2, 3], some "W", some [4, 5, 6]⟩⟩),
          Except.error "stat"⟩ = none :=
  ⟨(structured_precedence _
      ⟨none, some [40, 26, 46], some [79, 58, 56], some "N", some "S",
        some ⟨some "S", some [1, 2, 3], some "W", some [4, 5, 6]⟩⟩
      [40, 26, 46] [79, 58, 56] rfl rfl rfl).1,
    (structured_precedence _
      ⟨none, some [], some [79, 58, 56], none, none,
        some ⟨some "S", some [1, 2, 3], some "W", some [4, 5, 6]⟩⟩
      [] [79, 58, 56] rfl rfl rfl).2 "IndexError" rfl⟩

/-- Claim C9: `generate_new_filename` produces exactly the
underscore-joined concatenation the spec describes — formatted timestamp,
subfolder tag when non-empty, sanitized stem, the 6-decimal coordinate
component when coordinates are present, then the lower-cased extension.
Both sides are pure functions of (name, timestamp, tag, coords), so equal
inputs yield equal output strings (determinism). -/
theorem generate_new_filename_eq_spec (stem ext : String) (date : DateTime)
    (gps : Option (ℚ × ℚ)) (subfolder : String) :
    generate_new_filename stem ext date gps subfolder =
      compose_filename_spec stem ext date gps subfolder := by
  unfold generate_new_filename compose_filename_spec
  by_cases hs : subfolder = "" <;> rcases gps with _ | ⟨lat, lon⟩ <;>
    simp [hs, joinUnderscore, String.append_assoc]

/-- Helper: `DateTime.key` separates distinct valid datetimes (the fields
of a valid datetime are its base-100 digits, with the year on top). -/
theorem key_inj_valid (a b : DateTime) (ha : a.Valid) (hb : b.Valid)
    (h : a.key = b.key) : a = b := by
  obtain ⟨ha1, ha2, ha3, ha4, ha5, ha6, ha7⟩ := ha
  obtain ⟨hb1, hb2, hb3, hb4, hb5, hb6, hb7⟩ := hb
  cases a
  cases b
  simp only [DateTime.key] at h ha1 ha2 ha3 ha4 ha5 ha6 ha7 hb1 hb2 hb3 hb4 hb5 hb6 hb7 ⊢
  simp only [DateTime.mk.injEq]
  omega

/-- Helper: inserting a record whose date is not `t` does not change the
date-`t` records. -/
theorem filter_orderedInsert_not (t : DateTime) (x : Record) (l : List Record)
    (hx : x.date ≠ t) :
    (l.orderedInsert recLE x).filter (fun r => r.date == t) =
      l.filter (fun r => r.date == t) := by
  induction l with
  | nil => simp [List.orderedInsert, hx]
  | cons y l ih =>
    by_cases hle : recLE x y
    · simp [List.orderedInsert, if_pos hle, List.filter_cons, hx]
    · simp only [List.orderedInsert, if_neg hle]
      by_cases hy : y.date = t <;> simp [List.filter_cons, hy, ih]

/-- Helper: inserting a record of date `t` puts it in front of all
existing date-`t` records (it cannot pass an equal key). -/
theorem filter_orderedInsert_eq (t : DateTime) (x : Record) (l : List Record)
    (hx : x.date = t) :
    (l.orderedInsert recLE x).filter (fun r => r.date == t) =
      x :: l.filter (fun r => r.date == t) := by
  induction l with
  | nil => simp [List.orderedInsert, hx]
  | cons y l ih =>
    by_cases hle : recLE x y
    · simp [List.orderedInsert, if_pos hle, List.filter_cons, hx]
    · have hy : y.date ≠ t := by
        intro hyt
        exact hle (by unfold recLE; rw [hx, hyt])
      simp only [List.orderedInsert, if_neg hle]
      simp [List.filter_cons, hy, ih]

/-- Helper: stability of the sorting step, phrased per date class. -/
theorem filter_sort_images_eq (t : DateTime) (l : List Record) :
    (sort_images l).filter (fun r => r.date == t) = l.filter (fun r => r.date == t) := by
  induction l with
  | nil => rfl
  | cons a l ih =>
    show ((l.insertionSort recLE).orderedInsert recLE a).filter _ = _
    by_cases ha : a.date = t
    · rw [filter_orderedInsert_eq t a _ ha]
      show _ = (a :: l).filter fun r => r.date == t
      rw [show List.insertionSort recLE l = sort_images l from rfl, ih]
      simp [List.filter_cons, ha]
    · rw [filter_orderedInsert_not t a _ ha]
      show _ = (a :: l).filter fun r => r.date == t
      rw [show List.insertionSort recLE l = sort_images l from rfl, ih]
      simp [List.filter_cons, ha]

/-- Claim C4: the copy order is the input sorted ascending by resolved
timestamp alone — valid distinct timestamps appear in strictly increasing
key order; records with equal timestamps keep their discovery order
(stability, phrased per timestamp class); any rewriting of the records
that preserves dates (e.g. changing GPS data or subfolder tags) commutes
with sorting, so those fields never affect the order; and the output is a
permutation of the input. -/
theorem sort_images_spec (l : List Record) (hval : ∀ r ∈ l, r.date.Valid) :
    ((sort_images l).Pairwise fun a b => a.date ≠ b.date → a.date.key < b.date.key) ∧
    (∀ t : DateTime,
      (sort_images l).filter (fun r => r.date == t) = l.filter (fun r => r.date == t)) ∧
    (∀ g : Record → Record, (∀ r, (g r).date = r.date) →
      sort_images (l.map g) = (sort_images l).map g) ∧
    (sort_images l).Perm l := by
  refine ⟨?_, fun t => filter_sort_images_eq t l, fun g hg => ?_, List.perm_insertionSort recLE l⟩
  · have hsorted : (sort_images l).Pairwise recLE := List.sorted_insertionSort recLE l
    rw [List.pairwise_iff_forall_sublist] at hsorted ⊢
    intro a b hsub
    have hab : recLE a b := hsorted hsub
    have hmem := hsub.subset
    have ha : a ∈ l := (List.perm_insertionSort recLE l).subset (hmem (by simp))
    have hb : b ∈ l := (List.perm_insertionSort recLE l).subset (hmem (by simp))
    intro hne
    exact lt_of_le_of_ne hab
      (fun hkey => hne (key_inj_valid a.date b.date (hval a ha) (hval b hb) hkey))
  · exact (List.map_insertionSort recLE recLE g l
      (fun a _ b _ => by unfold recLE; rw [hg a, hg b])).symm

theorem sort_images_spec_witness :
    (∀ r ∈ [(⟨"b.jpg", ⟨2023, 5, 1, 12, 0, 0⟩, "EXIF: x", none, ""⟩ : Record),
        ⟨"a.jpg", ⟨2022, 5, 1, 12, 0, 0⟩, "EXIF: y", some (1, 2), "_v_"⟩,
        ⟨"c.jpg", ⟨2022, 5, 1, 12, 0, 0⟩, "EXIF: z", none, ""⟩], r.date.Valid) ∧
    (([(⟨"b.jpg", ⟨2023, 5, 1, 12, 0, 0⟩, "EXIF: x", none, ""⟩ : Record),
        ⟨"a.jpg", ⟨2022, 5, 1, 12, 0, 0⟩, "EXIF: y", some (1, 2), "_v_"⟩,
        ⟨"c.jpg", ⟨2022, 5, 1, 12, 0, 0⟩, "EXIF: z", none, ""⟩].insertionSort recLE).Pairwise
      fun a b => a.date ≠ b.date → a.date.key < b.date.key) ∧
    (sort_images [(⟨"b.jpg", ⟨2023, 5, 1, 12, 0, 0⟩, "EXIF: x", none, ""⟩ : Record),
        ⟨"a.jpg", ⟨2022, 5, 1, 12, 0, 0⟩, "EXIF: y", some (1, 2), "_v_"⟩,
        ⟨"c.jpg", ⟨2022, 5, 1, 12, 0, 0⟩, "EXIF: z", none, ""⟩]).filter
        (fun r => r.date == ⟨2022, 5, 1, 12, 0, 0⟩) =
      [(⟨"b.jpg", ⟨2023, 5, 1, 12, 0, 0⟩, "EXIF: x", none, ""⟩ : Record),
        ⟨"a.jpg", ⟨2022, 5, 1, 12, 0, 0⟩, "EXIF: y", some (1, 2), "_v_"⟩,
        ⟨"c.jpg", ⟨2022, 5, 1, 12, 0, 0⟩, "EXIF: z", none, ""⟩].filter
        (fun r => r.date == ⟨2022, 5, 1, 12, 0, 0⟩) := by
  have h := sort_images_spec
    [(⟨"b.jpg", ⟨2023, 5, 1, 12, 0, 0⟩, "EXIF: x", none, ""⟩ : Record),
      ⟨"a.jpg", ⟨2022, 5, 1, 12, 0, 0⟩, "EXIF: y", some (1, 2), "_v_"⟩,
      ⟨"c.jpg", ⟨2022, 5, 1, 12, 0, 0⟩, "EXIF: z", none, ""⟩] (by decide)
  exact ⟨by decide, h.1, h.2.1 ⟨2022, 5, 1, 12, 0, 0⟩⟩

/-- Helper: `decValRev` recovers the number encoded by `toDecimalAux`. -/
theorem decValRev_toDecimalAux : ∀ fuel n : Nat, n ≤ fuel →
    decValRev (toDecimalAux fuel n) = n := by
  intro fuel
  induction fuel with
  | zero =>
    intro n hn
    have h0 : n = 0 := Nat.le_zero.mp hn
    subst h0
    rfl
  | succ fuel ih =>
    intro n hn
    by_cases h0 : n = 0
    · subst h0
      rfl
    · have hdiv : n / 10 ≤ fuel := by
        have := Nat.div_lt_self (Nat.pos_of_ne_zero h0) (by norm_num : 1 < 10)
        omega
      simp only [toDecimalAux, if_neg h0, decValRev]
      rw [ih (n / 10) hdiv]
      have h10 : n % 10 < 10 := Nat.mod_lt _ (by norm_num)
      set d := n % 10 with hd
      have hchar : (Nat.digitChar d).toNat - 48 = d := by
        interval_cases d <;> rfl
      rw [hchar]
      omega

/-- Helper: the decimal representation determines the number. -/
theorem numStr_data_inj (a b : Nat) (h : (numStr a).data = (numStr b).data) : a = b := by
  by_cases ha : a = 0 <;> by_cases hb : b = 0
  · rw [ha, hb]
  · exfalso
    simp only [numStr, if_pos ha, if_neg hb] at h
    have h2 : toDecimalAux b b = ['0'] := by
      have h3 : ['0'] = (toDecimalAux b b).reverse := h
      rw [← List.reverse_reverse (toDecimalAux b b), ← h3]
      rfl
    have hval := decValRev_toDecimalAux b b le_rfl
    rw [h2] at hval
    exact hb (by rw [← hval]; rfl)
  · exfalso
    simp only [numStr, if_neg ha, if_pos hb] at h
    have h2 : toDecimalAux a a = ['0'] := by
      have h3 : (toDecimalAux a a).reverse = ['0'] := h
      rw [← List.reverse_reverse (toDecimalAux a a), h3]
      rfl
    have hval := decValRev_toDecimalAux a a le_rfl
    rw [h2] at hval
    exact ha (by rw [← hval]; rfl)
  · simp only [numStr, if_neg ha, if_neg hb] at h
    have heq : toDecimalAux a a = toDecimalAux b b := by
      have h3 : (toDecimalAux a a).reverse = (toDecimalAux b b).reverse := h
      rw [← List.reverse_reverse (toDecimalAux a a), h3, List.reverse_reverse]
    have h1 := decValRev_toDecimalAux a a le_rfl
    have h2 := decValRev_toDecimalAux b b le_rfl
    rw [heq, h2] at h1
    exact h1.symm

/-- Helper: distinct positive counters give distinct candidate names. -/
theorem candidateName_inj (base name ext : String) (j k : Nat)
    (hj : 1 ≤ j) (hk : 1 ≤ k)
    (h : candidateName base name ext j = candidateName base name ext k) : j = k := by
  unfold candidateName at h
  rw [if_neg (by omega), if_neg (by omega)] at h
  have hdata := congrArg String.data h
  simp only [String.data_append] at hdata
  have h2 := List.append_cancel_right hdata
  have h3 := List.append_cancel_left h2
  exact numStr_data_inj j k h3

/-- Helper: among counters 1..length+1 some candidate name is free
(pigeonhole over the finitely many existing names). -/
theorem exists_free_candidate (existing : List String) (base name ext : String) :
    ∃ k, k ≤ existing.length + 1 ∧ candidateName base name ext k ∉ existing := by
  by_contra hcon
  push_neg at hcon
  have hmem : ∀ a ∈ Finset.Icc 1 (existing.length + 1),
      candidateName base name ext a ∈ existing.toFinset := by
    intro a ha
    rw [Finset.mem_Icc] at ha
    exact List.mem_toFinset.mpr (hcon a ha.2)
  have hinj : Set.InjOn (candidateName base name ext) ↑(Finset.Icc 1 (existing.length + 1)) := by
    intro j hj k hk hjk
    rw [Finset.mem_coe, Finset.mem_Icc] at hj hk
    exact candidateName_inj base name ext j k hj.1 hk.1 hjk
  have hcard := Finset.card_le_card_of_injOn (candidateName base name ext) hmem hinj
  rw [Nat.card_Icc] at hcard
  have hlen := List.toFinset_card_le existing
  omega

/-- Helper: the probe loop returns the first free candidate, provided the
fuel reaches it. -/
theorem get_unique_filename_aux_eq (existing : List String) (base name ext : String) :
    ∀ fuel c K : Nat, c ≤ K → K < c + fuel →
      candidateName base name ext K ∉ existing →
      (∀ j, c ≤ j → j < K → candidateName base name ext j ∈ existing) →
      get_unique_filename_aux existing base name ext fuel c =
        candidateName base name ext K := by
  intro fuel
  induction fuel with
  | zero =>
    intro c K h1 h2 _ _
    omega
  | succ fuel ih =>
    intro c K h1 h2 h3 h4
    by_cases hc : candidateName base name ext c ∈ existing
    · have hcK : c < K := by
        rcases Nat.eq_or_lt_of_le h1 with h | h
        · exact absurd (h ▸ hc) h3
        · exact h
      simp only [get_unique_filename_aux, if_pos hc]
      exact ih (c + 1) K (by omega) (by omega) h3 (fun j hj1 hj2 => h4 j (by omega) hj2)
    · have hcK : K = c := by
        rcases Nat.eq_or_lt_of_le h1 with h | h
        · omega
        · exact absurd (h4 c le_rfl h) hc
      simp only [get_unique_filename_aux, if_neg hc]
      rw [hcK]

/-- Claim C3: given the fixed finite set of names already present,
`get_unique_filename` returns the base name itself when free, and in
general the candidate for the least counter whose name is free, where
counter 0 is the base name and counter n ≥ 1 is `<stem>_<n><ext>` with the
suffix inserted before the extension; it is a pure function of its inputs
(deterministic).  The two concrete probing examples of the spec hold. -/
theorem get_unique_filename_first_free (existing : List String) (base : String) :
    (base ∉ existing → get_unique_filename true existing base = base) ∧
    (∃ K, get_unique_filename true existing base =
        candidateName base (splitext base).1 (splitext base).2 K ∧
      candidateName base (splitext base).1 (splitext base).2 K ∉ existing ∧
      ∀ j < K, candidateName base (splitext base).1 (splitext base).2 j ∈ existing) ∧
    get_unique_filename true ["20230101_120000_photo.jpg"] "20230101_120000_photo.jpg" =
      "20230101_120000_photo_1.jpg" ∧
    get_unique_filename true ["20230101_120000_photo.jpg", "20230101_120000_photo_1.jpg"]
      "20230101_120000_photo.jpg" = "20230101_120000_photo_2.jpg" := by
  refine ⟨?_, ?_, by decide, by decide⟩
  · intro hb
    show (if true = false then base
      else get_unique_filename_aux existing base (splitext base).1 (splitext base).2
        (existing.length + 2) 0) = base
    rw [if_neg (by decide)]
    rw [get_unique_filename_aux_eq existing base _ _ (existing.length + 2) 0 0 le_rfl
      (by omega) (by simpa [candidateName] using hb)
      (fun j _ hj2 => absurd hj2 (Nat.not_lt_zero j))]
    rfl
  · obtain ⟨k0, hk0, hfree⟩ :=
      exists_free_candidate existing base (splitext base).1 (splitext base).2
    have hex : ∃ K, candidateName base (splitext base).1 (splitext base).2 K ∉ existing :=
      ⟨k0, hfree⟩
    refine ⟨Nat.find hex, ?_, Nat.find_spec hex,
      fun j hj => Decidable.of_not_not (Nat.find_min hex hj)⟩
    show (if true = false then base
      else get_unique_filename_aux existing base (splitext base).1 (splitext base).2
        (existing.length + 2) 0) = _
    rw [if_neg (by decide)]
    have hbound : Nat.find hex ≤ existing.length + 1 := (Nat.find_min' hex hfree).trans hk0
    exact get_unique_filename_aux_eq existing base _ _ (existing.length + 2) 0 (Nat.find hex)
      (Nat.zero_le _) (by omega) (Nat.find_spec hex)
      (fun j _ hj2 => Decidable.of_not_not (Nat.find_min hex hj2))

theorem get_unique_filename_first_free_witness :
    "photo.jpg" ∉ ["other.jpg"] ∧
    get_unique_filename true ["other.jpg"] "photo.jpg" = "photo.jpg" :=
  ⟨by decide, (get_unique_filename_first_free ["other.jpg"] "photo.jpg").1 (by decide)⟩

end PictureSort
